import Mathlib

/-!
Verification development for the eat-in turn-time leaderboard pipeline
(`app.py`): column resolution (`pick_col`, `map_required_columns`), the
aggregation (`compute_leaderboard`) and the renderer's per-row coloring
(`render_image_table`).

The tabular data is shallowly embedded: a cell is a tagged value
(text, rational number, timestamp, missing), a row is an association
list from column name to cell, and a table is an ordered column list
plus a row list.  Timestamp cells stand for the date-like values the
pandas parser accepts, measured in seconds; all other cells coerce to
`NaT` (modelled as `nan`) under `pd.to_datetime(..., errors="coerce")`.
Rationals stand for the float arithmetic; IEEE infinities are not
representable, which is faithful here because a difference of two
parsed timestamps is always finite (the `replace([inf, -inf], nan)`
step in the source is unreachable for the computed turn-time column).
-/

/-- A single cell value: text, numeric, timestamp (seconds), or missing
(`NaN`/`NaT`). -/
inductive Cell where
  | str (s : String)
  | num (q : ℚ)
  | time (t : ℤ)
  | nan
deriving DecidableEq, Repr

/-- A row: an association list from column name to cell (first entry wins
on lookup, as a pandas frame with unique labels). -/
abbrev Row := List (String × Cell)

/-- A table: ordered column names plus rows. -/
structure RawTable where
  cols : List String
  rows : List Row
deriving DecidableEq, Repr

/-- Read a cell from a row; an absent column reads as missing. -/
def getCell (r : Row) (c : String) : Cell := (r.lookup c).getD .nan

/-- `pd.to_datetime(v, errors="coerce")` on one cell: timestamp cells
(the parseable date-likes) survive, everything else coerces to `NaT`. -/
def toDatetimeCell : Cell → Cell
  | .time t => .time t
  | _ => .nan

/-- Overwrite column `c` of a row with the coerced datetime of its old
value (the per-row effect of `df[c] = pd.to_datetime(df[c], errors="coerce")`). -/
def coerceDateRow (c : String) (r : Row) : Row :=
  r.map (fun kv => if kv.1 == c then (kv.1, toDatetimeCell kv.2) else kv)

/-- In-place datetime coercion of one column of a table. -/
def coerceDateCol (t : RawTable) (c : String) : RawTable :=
  { t with rows := t.rows.map (coerceDateRow c) }

/-- The caller's table after `compute_leaderboard` has run lines 42-43:
the `Opened` and `Closed` columns are coerced in place. -/
def coercedTable (t : RawTable) (cO cC : String) : RawTable :=
  coerceDateCol (coerceDateCol t cO) cC

/-- Is `pat` a contiguous sublist of `l`? -/
def listContains (pat : List Char) : List Char → Bool
  | [] => pat.isEmpty
  | c :: rest => pat.isPrefixOf (c :: rest) || listContains pat rest

/-- Substring test on strings, via character lists. -/
def strContains (s pat : String) : Bool := listContains pat.toList s.toList

/-- Lowercasing (`str.lower()` / `case=False`), via character lists. -/
def lowerStr (s : String) : String := String.mk (s.toList.map Char.toLower)

/-- Uppercasing (`str.upper()`), via character lists. -/
def upperStr (s : String) : String := String.mk (s.toList.map Char.toUpper)

/-- Whitespace-trimming (`str.strip()`), via character lists. -/
def trimStr (s : String) : String :=
  String.mk (((s.toList.dropWhile Char.isWhitespace).reverse.dropWhile
    Char.isWhitespace).reverse)

/-- Python `str(v)` / pandas `astype(str)` of a cell; `NaN` prints as
`"nan"`.  The exact numeral rendering of numeric and timestamp cells is
immaterial to every property below. -/
def pyStr : Cell → String
  | .str s => s
  | .num q => toString q
  | .time t => toString t
  | .nan => "nan"

/-- The eat-in filter predicate:
`df[col_service].astype(str).str.contains("eat in", case=False, na=False)`. -/
def eatInMatch (v : Cell) : Bool := strContains (lowerStr (pyStr v)) "eat in"

/-- The rows surviving the service filter (line 44), over the
date-coerced table. -/
def eatRows (t : RawTable) (cO cC cSvc : String) : List Row :=
  (coercedTable t cO cC).rows.filter (fun r => eatInMatch (getCell r cSvc))

/-- `(eat[col_closed] - eat[col_opened]).dt.total_seconds()/60` for one
row: defined when both cells are parsed timestamps, missing (`NaN`)
otherwise. -/
def turnTimeMin (r : Row) (cO cC : String) : Option ℚ :=
  match getCell r cO, getCell r cC with
  | .time o, .time c => some (mkRat (c - o) 60)
  | _, _ => none

/-- `df[c] = v` on one row: overwrite an existing column, else append a
new one at the end. -/
def setColCell (r : Row) (c : String) (v : Cell) : Row :=
  if (r.lookup c).isSome then r.map (fun kv => if kv.1 == c then (kv.1, v) else kv)
  else r ++ [(c, v)]

/-- Lines 45-47: the surviving rows, each paired with its turn time in
minutes.  A row survives when its service matched, both timestamps
parsed, and the turn time is non-negative; the surviving row carries the
added `"Turn Time"` column. -/
def survivors (t : RawTable) (cO cC cSvc : String) : List (Row × ℚ) :=
  (eatRows t cO cC cSvc).filterMap
    (fun r => match turnTimeMin r cO cC with
      | some q => if 0 ≤ q then some (setColCell r "Turn Time" (.num q), q) else none
      | none => none)

/-- Line 51 on one cell: `fillna("(Unknown)").replace("", "(Unknown)")`. -/
def fixServer (v : Cell) : Cell :=
  match v with
  | .nan => .str "(Unknown)"
  | .str s => if s = "" then .str "(Unknown)" else .str s
  | v => v

/-- Line 51 on one surviving row: rewrite the server column in place. -/
def fixServerCol (cSrv : String) (p : Row × ℚ) : Row × ℚ :=
  (p.1.map (fun kv => if kv.1 == cSrv then (kv.1, fixServer kv.2) else kv), p.2)

/-- Sum of a list of rationals, via the explicit normalised-fraction
addition `qAdd` (all the kernel-evaluable rational operations below are
proved equal to the library operations in the bridging lemmas that
follow the definitions). -/
def qAdd (a b : ℚ) : ℚ := mkRat (a.num * b.den + b.num * a.den) (a.den * b.den)

/-- Sum of a list of rationals. -/
def qSum : List ℚ → ℚ := List.foldr qAdd 0

/-- Division of a rational by a natural number (`0` on division by zero,
as in the library). -/
def qDivN (a : ℚ) (n : ℕ) : ℚ := mkRat a.num (a.den * n)

/-- Multiplication of a rational by a natural number. -/
def qMulN (a : ℚ) (n : ℕ) : ℚ := mkRat (a.num * n) a.den

/-- Rounding to the nearest integer, halves up: `round q = ⌊q + 1/2⌋`. -/
def qRound (q : ℚ) : ℤ := (2 * q.num + (q.den : ℤ)) / ((2 * q.den : ℕ) : ℤ)

/-- Arithmetic mean of a list of rationals. -/
def meanQ (l : List ℚ) : ℚ := qDivN (qSum l) l.length

/-- Lines 52-53: group the surviving rows by their (fixed-up) server
cell and take each group's mean turn time.  The key order is the
grouping's own order, which the downstream sort makes irrelevant. -/
def groupMeans (surv : List (Row × ℚ)) (cSrv : String) : List (Cell × ℚ) :=
  ((surv.map (fun p => getCell p.1 cSrv)).dedup).map
    (fun k => (k, meanQ ((surv.filter (fun p => getCell p.1 cSrv = k)).map Prod.snd)))

/-- The sort key of line 54: ascending mean turn time. -/
def ttle (a b : Cell × ℚ) : Prop := a.2 ≤ b.2

instance : DecidableRel ttle := fun a b => inferInstanceAs (Decidable (a.2 ≤ b.2))

instance : IsTotal (Cell × ℚ) ttle := ⟨fun a b => le_total a.2 b.2⟩

instance : IsTrans (Cell × ℚ) ttle := ⟨fun _ _ _ h1 h2 => le_trans h1 h2⟩

/-- Rounding to two decimal places (`round(x, 2)` / `.round(2)`). -/
def round2 (q : ℚ) : ℚ := mkRat (qRound (qMulN q 100)) 100

/-- Line 57: the store average, the rounded mean of the full-precision
per-row turn times over all surviving rows. -/
def storeAvg (surv : List (Row × ℚ)) : ℚ := round2 (meanQ (surv.map Prod.snd))

/-- Is the cell missing? -/
def isNanCell : Cell → Bool
  | .nan => true
  | _ => false

/-- `eat[col_site].dropna()`: the non-missing site cells of the
surviving rows. -/
def siteVals (surv : List (Row × ℚ)) (cs : String) : List Cell :=
  (surv.map (fun p => getCell p.1 cs)).filter (fun v => !isNanCell v)

/-- Lines 59-62: the single-site annotation.  When the site column is
resolved and exactly one distinct non-missing value occurs among the
surviving rows, that value (as a string) annotates every output row. -/
def siteAnn (surv : List (Row × ℚ)) (cSite : Option String) : Option String :=
  match cSite with
  | none => none
  | some cs =>
    if (siteVals surv cs).dedup.length = 1 then (siteVals surv cs).head?.map pyStr
    else none

/-- One output leaderboard row: optional site, server cell, turn time. -/
structure LBRow where
  site : Option String
  server : Cell
  turnTime : ℚ
deriving DecidableEq, Repr

/-- The pipeline's failures: unresolvable required columns
(`SchemaError`, with the missing role names) or no surviving rows
(`NoValidRowsError`). -/
inductive Err where
  | schemaError (missing : List String)
  | noValidRows
deriving DecidableEq, Repr

/-- `compute_leaderboard` (lines 41-64): filter to eat-in rows with a
valid non-negative turn time, fail when none survive, group by server
(missing/empty replaced by `"(Unknown)"`), sort ascending by mean turn
time, round the means, append the `"STORE AVERAGE"` sentinel computed
from the per-row values, and annotate a single shared site. -/
def compute_leaderboard (t : RawTable) (cO cC cSvc cSrv : String)
    (cSite : Option String) : Except Err (List LBRow) :=
  let surv0 := survivors t cO cC cSvc
  if surv0.isEmpty then .error .noValidRows
  else
    let surv := surv0.map (fixServerCol cSrv)
    let grp := (List.insertionSort ttle (groupMeans surv cSrv)).map
      (fun p => (p.1, round2 p.2))
    let site := siteAnn surv cSite
    .ok ((grp.map (fun p => ⟨site, p.1, p.2⟩)) ++
      [⟨site, .str "STORE AVERAGE", storeAvg surv⟩])

/-- Normalised column name: trimmed then lowercased. -/
def normCol (s : String) : String := lowerStr (trimStr s)

/-- One alias test of `pick_col`: the normalised column name equals
the lowercased alias or contains it as a substring. -/
def aliasHit (c : String) (a : String) : Bool :=
  normCol c == lowerStr a || strContains (normCol c) (lowerStr a)

/-- Does a column name satisfy any alias of a role? -/
def colMatches (c : String) (candidates : List String) : Bool :=
  candidates.any (fun a => aliasHit c a)

/-- `pick_col`: the first column, in the table's original order, that
satisfies any alias of the role. -/
def pick_col (cols : List String) (candidates : List String) : Option String :=
  cols.find? (fun c => colMatches c candidates)

def aliasesOpened : List String :=
  ["opened", "open", "order start", "start time", "opened at"]

def aliasesClosed : List String :=
  ["closed", "close", "order end", "end time", "closed at"]

def aliasesService : List String :=
  ["service", "service type", "order type"]

def aliasesCreatedBy : List String :=
  ["created by", "server", "server name", "employee", "cashier"]

def aliasesSite : List String :=
  ["site", "location", "store", "restaurant"]

/-- The resolved column mapping of the five roles; `site` is optional. -/
structure ColumnMapping where
  opened : String
  closed : String
  service : String
  createdBy : String
  site : Option String
deriving DecidableEq, Repr

/-- Line 36: the names of the required roles that failed to resolve, in
the fixed role order. -/
def missingRoles (cols : List String) : List String :=
  [("Opened", pick_col cols aliasesOpened),
   ("Closed", pick_col cols aliasesClosed),
   ("Service", pick_col cols aliasesService),
   ("Created By", pick_col cols aliasesCreatedBy)].filterMap
    (fun p => if p.2.isNone then some p.1 else none)

/-- `map_required_columns` (lines 30-39): resolve the five roles; fail
with the full missing-role list when any of the four required ones is
unresolved. -/
def map_required_columns (cols : List String) : Except Err ColumnMapping :=
  match pick_col cols aliasesOpened, pick_col cols aliasesClosed,
        pick_col cols aliasesService, pick_col cols aliasesCreatedBy with
  | some o, some c, some s, some v =>
    .ok ⟨o, c, s, v, pick_col cols aliasesSite⟩
  | _, _, _, _ => .error (.schemaError (missingRoles cols))

/-- Cell background colors assigned by the renderer. -/
inductive CellColor where
  | white
  | neutral
  | good
  | warning
  | bad
deriving DecidableEq, Repr

/-- `float(v)` inside the renderer's `try`.  Numeric cells parse; a
missing cell's `float` is `NaN`, which fails all three threshold
comparisons and so yields no color, exactly like the modelled `none`;
text and timestamp cells raise and land in the `except: pass` arm,
also `none` here. -/
def tryFloat : Cell → Option ℚ
  | .num q => some q
  | _ => none

/-- The display columns of `render_image_table` (line 67): those of
`["Site", "Server", "Turn Time"]` present in the frame, in that order. -/
def displayCols (cols : List String) : List String :=
  ["Site", "Server", "Turn Time"].filter (fun c => cols.contains c)

/-- Lines 74-89: the background colors of one rendered row.  A sentinel
row (server equal to `"STORE AVERAGE"` after strip/upper) is wholly
neutral, taking precedence; otherwise only the turn-time cell is
classified against the thresholds, and an unparsable value leaves the
row uncolored. -/
def rowColors (g y : ℚ) (dcols : List String) (r : Row) : List CellColor :=
  let n := dcols.length
  let ttIdx := dcols.indexOf "Turn Time"
  if upperStr (trimStr (pyStr (getCell r "Server"))) == "STORE AVERAGE" then
    List.replicate n .neutral
  else
    match tryFloat (getCell r "Turn Time") with
    | some v =>
      if v < g then (List.replicate n .white).set ttIdx .good
      else if g ≤ v ∧ v ≤ y then (List.replicate n .white).set ttIdx .warning
      else if y < v then (List.replicate n .white).set ttIdx .bad
      else List.replicate n .white
    | none => List.replicate n .white

/-- An output leaderboard row as the renderer's frame sees it. -/
def lbRowToRow (r : LBRow) : Row :=
  (match r.site with
   | some s => [("Site", Cell.str s)]
   | none => []) ++ [("Server", r.server), ("Turn Time", .num r.turnTime)]

/-- The spec's end-to-end example table: two eat-in rows (30 and 50
minutes) and one delivery row. -/
def t0 : RawTable :=
  { cols := ["Opened", "Closed", "Service", "Server"],
    rows := [
      [("Opened", .time 0), ("Closed", .time 1800), ("Service", .str "Eat In"),
       ("Server", .str "A")],
      [("Opened", .time 0), ("Closed", .time 3000), ("Service", .str "Eat In"),
       ("Server", .str "B")],
      [("Opened", .time 0), ("Closed", .time 600), ("Service", .str "Delivery"),
       ("Server", .str "C")]] }

/-- The four service values of the spec's filtering example, one row each. -/
def tC1 : RawTable :=
  { cols := ["Opened", "Closed", "Service", "Server"],
    rows := [
      [("Opened", .time 0), ("Closed", .time 600), ("Service", .str "Eat In"),
       ("Server", .str "A")],
      [("Opened", .time 0), ("Closed", .time 1200), ("Service", .str "EAT-IN"),
       ("Server", .str "B")],
      [("Opened", .time 0), ("Closed", .time 1800), ("Service", .str "Take Out"),
       ("Server", .str "C")],
      [("Opened", .time 0), ("Closed", .time 2400), ("Service", .str "to go"),
       ("Server", .str "D")]] }

/-- Unequal group sizes: server A has turn times 10 and 20, server B has
40; the per-row mean (70/3) differs from the mean of group means (27.5). -/
def t3 : RawTable :=
  { cols := ["Opened", "Closed", "Service", "Server"],
    rows := [
      [("Opened", .time 0), ("Closed", .time 600), ("Service", .str "Eat In"),
       ("Server", .str "A")],
      [("Opened", .time 0), ("Closed", .time 1200), ("Service", .str "Eat In"),
       ("Server", .str "A")],
      [("Opened", .time 0), ("Closed", .time 2400), ("Service", .str "Eat In"),
       ("Server", .str "B")]] }

/-- A table whose Opened cell is an unparsable string. -/
def t4 : RawTable :=
  { cols := ["Opened", "Closed", "Service", "Server"],
    rows := [
      [("Opened", .str "garbage"), ("Closed", .time 60), ("Service", .str "Eat In"),
       ("Server", .str "A")]] }

/-- One missing employee and one whitespace-only employee. -/
def t10 : RawTable :=
  { cols := ["Opened", "Closed", "Service", "Server"],
    rows := [
      [("Opened", .time 0), ("Closed", .time 600), ("Service", .str "Eat In"),
       ("Server", .nan)],
      [("Opened", .time 0), ("Closed", .time 1200), ("Service", .str "Eat In"),
       ("Server", .str " ")]] }

/-- Two eat-in rows sharing the single site value "HQ"; the second
row's Site cell is missing. -/
def t9 : RawTable :=
  { cols := ["Opened", "Closed", "Service", "Server", "Site"],
    rows := [
      [("Opened", .time 0), ("Closed", .time 600), ("Service", .str "Eat In"),
       ("Server", .str "A"), ("Site", .str "HQ")],
      [("Opened", .time 0), ("Closed", .time 1200), ("Service", .str "Eat In"),
       ("Server", .str "B"), ("Site", .nan)]] }

/-- The leaderboard computed from `t9`, annotated with the single site. -/
def rows9 : List LBRow :=
  [⟨some "HQ", .str "A", 10⟩, ⟨some "HQ", .str "B", 20⟩,
   ⟨some "HQ", .str "STORE AVERAGE", 15⟩]

/-- The eat-in row of `tC1`. -/
def rowA : Row :=
  [("Opened", .time 0), ("Closed", .time 600), ("Service", .str "Eat In"),
   ("Server", .str "A")]

/-- The leaderboard computed from `t0`. -/
def rows0 : List LBRow :=
  [⟨none, .str "A", 30⟩, ⟨none, .str "B", 50⟩, ⟨none, .str "STORE AVERAGE", 40⟩]

/-- The leaderboard computed from `t3`. -/
def rows3 : List LBRow :=
  [⟨none, .str "A", 15⟩, ⟨none, .str "B", 40⟩,
   ⟨none, .str "STORE AVERAGE", mkRat 2333 100⟩]

instance {e a : Type} [DecidableEq e] [DecidableEq a] : DecidableEq (Except e a) :=
  fun x y =>
    match x, y with
    | .ok x, .ok y =>
      if h : x = y then isTrue (by rw [h]) else isFalse (by simp [h])
    | .error x, .error y =>
      if h : x = y then isTrue (by rw [h]) else isFalse (by simp [h])
    | .ok _, .error _ => isFalse (by simp)
    | .error _, .ok _ => isFalse (by simp)

/-!
### Bridging lemmas

The explicit fraction operations used in the embedding agree with the
library's rational arithmetic.
-/

theorem qAdd_eq (a b : ℚ) : qAdd a b = a + b := by
  have ha : (a.den : ℚ) ≠ 0 := Nat.cast_ne_zero.mpr a.den_nz
  have hb : (b.den : ℚ) ≠ 0 := Nat.cast_ne_zero.mpr b.den_nz
  rw [qAdd, Rat.mkRat_eq_div]
  push_cast
  conv_rhs => rw [← Rat.num_div_den a, ← Rat.num_div_den b]
  rw [div_add_div _ _ ha hb]
  congr 1
  ring

theorem qSum_eq (l : List ℚ) : qSum l = l.sum := by
  induction l with
  | nil => rfl
  | cons x xs ih => simp [qSum, List.foldr_cons, qAdd_eq, List.sum_cons]
                    rw [show List.foldr qAdd 0 xs = qSum xs from rfl, ih]

theorem qDivN_eq (a : ℚ) (n : ℕ) : qDivN a n = a / n := by
  have ha : (a.den : ℚ) ≠ 0 := Nat.cast_ne_zero.mpr a.den_nz
  rcases Nat.eq_zero_or_pos n with h | h
  · subst h
    simp [qDivN, Rat.mkRat_eq_div]
  · have hn : (n : ℚ) ≠ 0 := Nat.cast_ne_zero.mpr (Nat.pos_iff_ne_zero.mp h)
    rw [qDivN, Rat.mkRat_eq_div]
    push_cast
    rw [div_mul_eq_div_div, Rat.num_div_den]

theorem qMulN_eq (a : ℚ) (n : ℕ) : qMulN a n = a * n := by
  have ha : (a.den : ℚ) ≠ 0 := Nat.cast_ne_zero.mpr a.den_nz
  rw [qMulN, Rat.mkRat_eq_div]
  push_cast
  conv_rhs => rw [← Rat.num_div_den a]
  ring

theorem qRound_eq (q : ℚ) : qRound q = round q := by
  have hd : ((2 * q.den : ℕ) : ℚ) ≠ 0 := by
    have := q.den_nz
    exact Nat.cast_ne_zero.mpr (by omega)
  have hq : q + 1 / 2 = (((2 * q.num + (q.den : ℤ)) : ℤ) : ℚ) / ((2 * q.den : ℕ) : ℚ) := by
    have hden : (q.den : ℚ) ≠ 0 := Nat.cast_ne_zero.mpr q.den_nz
    conv_lhs => rw [← Rat.num_div_den q]
    push_cast
    field_simp
    ring
  rw [round_eq, hq, Rat.floor_intCast_div_natCast, qRound]

theorem meanQ_eq (l : List ℚ) : meanQ l = l.sum / l.length := by
  rw [meanQ, qDivN_eq, qSum_eq]

theorem round2_eq (q : ℚ) : round2 q = ((round (q * 100) : ℤ) : ℚ) / 100 := by
  rw [round2, Rat.mkRat_eq_div, qRound_eq, qMulN_eq]
  norm_num

theorem round2_mono {a b : ℚ} (h : a ≤ b) : round2 a ≤ round2 b := by
  rw [round2_eq, round2_eq]
  have h1 : round (a * 100) ≤ round (b * 100) := by
    rw [round_eq, round_eq]
    exact Int.floor_le_floor (by linarith)
  have hc : ((round (a * 100) : ℤ) : ℚ) ≤ ((round (b * 100) : ℤ) : ℚ) := by
    exact_mod_cast h1
  linarith

/-!
### Structural helper lemmas
-/

theorem listContains_iff (pat : List Char) (l : List Char) :
    listContains pat l = true ↔ pat <:+: l := by
  induction l with
  | nil => simp [listContains, List.isEmpty_iff]
  | cons c rest ih =>
    rw [listContains, Bool.or_eq_true, List.isPrefixOf_iff_prefix, ih,
      List.infix_cons_iff]

theorem strContains_iff (s pat : String) :
    strContains s pat = true ↔ pat.toList <:+: s.toList :=
  listContains_iff pat.toList s.toList

theorem lookup_coerceDateRow (c k : String) (h : k ≠ c) (r : Row) :
    (coerceDateRow c r).lookup k = r.lookup k := by
  induction r with
  | nil => rfl
  | cons kv rest ih =>
    rcases kv with ⟨n, v⟩
    have hmap : coerceDateRow c ((n, v) :: rest)
        = (if n == c then (n, toDatetimeCell v) else (n, v)) :: coerceDateRow c rest := rfl
    rw [hmap]
    by_cases hn : n = c
    · have hb : (n == c) = true := beq_iff_eq.mpr hn
      rw [if_pos hb, List.lookup_cons, List.lookup_cons]
      have hkn : (k == n) = false := beq_eq_false_iff_ne.mpr (fun hk => h (hk.trans hn))
      rw [hkn]
      exact ih
    · have hb : (n == c) = false := beq_eq_false_iff_ne.mpr hn
      rw [if_neg (by simp [hb]), List.lookup_cons, List.lookup_cons]
      cases hkn : (k == n) with
      | true => rfl
      | false => exact ih

theorem dedup_length_one_iff {α : Type} [DecidableEq α] (l : List α) :
    l.dedup.length = 1 ↔ ∃ a, l ≠ [] ∧ ∀ x ∈ l, x = a := by
  constructor
  · intro h
    rcases List.length_eq_one.mp h with ⟨a, ha⟩
    refine ⟨a, ?_, ?_⟩
    · rintro rfl
      simp [List.dedup_nil] at ha
    · intro x hx
      have : x ∈ l.dedup := List.mem_dedup.mpr hx
      rw [ha] at this
      simpa using this
  · rintro ⟨a, hne, hall⟩
    have : l.dedup = [a] := by
      induction l with
      | nil => exact absurd rfl hne
      | cons x xs ih =>
        have hx : x = a := hall x (List.mem_cons_self x xs)
        subst hx
        rcases eq_or_ne xs [] with h | h
        · subst h
          simp
        · have hxs : xs.dedup = [x] := by
            apply ih h
            intro y hy
            exact hall y (List.mem_cons_of_mem _ hy)
          rcases List.exists_mem_of_ne_nil xs h with ⟨y, hy⟩
          have hyx : y = x := hall y (List.mem_cons_of_mem _ hy)
          rw [List.dedup_cons_of_mem (hyx ▸ hy), hxs]
    rw [this]
    rfl

theorem fixServerCol_snd (cSrv : String) (p : Row × ℚ) :
    (fixServerCol cSrv p).2 = p.2 := rfl

theorem compute_ok_eq {t : RawTable} {cO cC cSvc cSrv : String} {cSite : Option String}
    {rows : List LBRow}
    (h : compute_leaderboard t cO cC cSvc cSrv cSite = .ok rows) :
    rows =
      (List.insertionSort ttle
          (groupMeans ((survivors t cO cC cSvc).map (fixServerCol cSrv)) cSrv)).map
        (fun p =>
          ⟨siteAnn ((survivors t cO cC cSvc).map (fixServerCol cSrv)) cSite, p.1,
            round2 p.2⟩)
      ++ [⟨siteAnn ((survivors t cO cC cSvc).map (fixServerCol cSrv)) cSite,
          .str "STORE AVERAGE",
          storeAvg ((survivors t cO cC cSvc).map (fixServerCol cSrv))⟩] := by
  unfold compute_leaderboard at h
  by_cases he : (survivors t cO cC cSvc).isEmpty = true
  · simp only [he, if_true] at h
    exact absurd h (by simp)
  · rw [Bool.not_eq_true] at he
    simp only [he, Bool.false_eq_true, if_false, Except.ok.injEq] at h
    rw [← h, List.map_map]
    rfl

/-!
### Claim theorems
-/

/-- C8: for every role and table, the resolver returns the first column in
the table's original column order whose trimmed, lowercased name equals
one of the role's aliases or contains one as a substring; if no column
matches any alias, the role resolves to absent. -/
theorem pick_col_spec (cols cands : List String) :
    (∀ c, pick_col cols cands = some c ↔
      colMatches c cands = true ∧
        ∃ l1 l2, cols = l1 ++ c :: l2 ∧ ∀ d ∈ l1, colMatches d cands = false)
    ∧ (pick_col cols cands = none ↔ ∀ c ∈ cols, colMatches c cands = false)
    ∧ (∀ c, colMatches c cands = true ↔
        ∃ a ∈ cands, normCol c = lowerStr a ∨ strContains (normCol c) (lowerStr a) = true) := by
  refine ⟨fun c => ?_, ?_, fun c => ?_⟩
  · rw [pick_col, List.find?_eq_some]
    constructor
    · rintro ⟨hc, as, bs, rfl, hall⟩
      exact ⟨hc, as, bs, rfl, fun d hd => by simpa using hall d hd⟩
    · rintro ⟨hc, as, bs, rfl, hall⟩
      exact ⟨hc, as, bs, rfl, fun d hd => by simpa using hall d hd⟩
  · rw [pick_col, List.find?_eq_none]
    constructor
    · intro hall c hc
      simpa using hall c hc
    · intro hall c hc
      simp [hall c hc]
  · rw [colMatches, List.any_eq_true]
    constructor
    · rintro ⟨a, ha, hhit⟩
      rw [aliasHit, Bool.or_eq_true, beq_iff_eq] at hhit
      exact ⟨a, ha, hhit⟩
    · rintro ⟨a, ha, hhit⟩
      exact ⟨a, ha, by rw [aliasHit, Bool.or_eq_true, beq_iff_eq]; exact hhit⟩

/-- Witness for C8: the column "Date Opened At" is picked for the Opened
role ahead of the exact-named "Opened" column, because it occurs first. -/
theorem pick_col_witness :
    colMatches "Date Opened At" aliasesOpened = true ∧
    ∃ l1 l2, ["Date Opened At", "Opened"] = l1 ++ "Date Opened At" :: l2 ∧
      ∀ d ∈ l1, colMatches d aliasesOpened = false :=
  ((pick_col_spec ["Date Opened At", "Opened"] aliasesOpened).1 "Date Opened At").mp
    (by decide)

/-- C5: resolution fails with a SchemaError carrying the list of all
missing role names exactly when at least one of Opened, Closed, Service
or the employee role cannot be resolved; absence of Site alone is never
an error and an ok result carries all four required columns. -/
theorem schema_error_spec (cols : List String) :
    ((∃ m, map_required_columns cols = .error (.schemaError m)) ↔
      pick_col cols aliasesOpened = none ∨ pick_col cols aliasesClosed = none ∨
      pick_col cols aliasesService = none ∨ pick_col cols aliasesCreatedBy = none)
    ∧ (∀ m, map_required_columns cols = .error (.schemaError m) → missingRoles cols = m)
    ∧ ("Opened" ∈ missingRoles cols ↔ pick_col cols aliasesOpened = none)
    ∧ ("Closed" ∈ missingRoles cols ↔ pick_col cols aliasesClosed = none)
    ∧ ("Service" ∈ missingRoles cols ↔ pick_col cols aliasesService = none)
    ∧ ("Created By" ∈ missingRoles cols ↔ pick_col cols aliasesCreatedBy = none)
    ∧ "Site" ∉ missingRoles cols
    ∧ (∀ cm, map_required_columns cols = .ok cm →
        pick_col cols aliasesOpened = some cm.opened ∧
        pick_col cols aliasesClosed = some cm.closed ∧
        pick_col cols aliasesService = some cm.service ∧
        pick_col cols aliasesCreatedBy = some cm.createdBy ∧
        cm.site = pick_col cols aliasesSite) := by
  rcases ho : pick_col cols aliasesOpened with _ | o <;>
  rcases hc : pick_col cols aliasesClosed with _ | c <;>
  rcases hs : pick_col cols aliasesService with _ | sv <;>
  rcases hv : pick_col cols aliasesCreatedBy with _ | em <;>
    (unfold map_required_columns missingRoles
     rw [ho, hc, hs, hv]
     simp)

/-- Witness for C5: with only Opened and Closed resolvable, the error
carries exactly the missing roles Service and Created By. -/
theorem schema_error_witness :
    missingRoles ["opened", "closed"] = ["Service", "Created By"] :=
  (schema_error_spec ["opened", "closed"]).2.1 ["Service", "Created By"] (by decide)

/-- C1 (amended): the eat-in filter retains exactly the rows whose
Service value, case-insensitively, contains the literal substring
"eat in"; of the example values "Eat In", "EAT-IN", "Take Out", "to go"
only the first is retained (the hyphenated variant lacks the literal
substring), and every surviving row, hence the store average, comes
from a retained row. -/
theorem eatin_filter_spec (t : RawTable) (cO cC cSvc : String) :
    (∀ r : Row, r ∈ eatRows t cO cC cSvc ↔
      r ∈ (coercedTable t cO cC).rows ∧
        "eat in".toList <:+: (lowerStr (pyStr (getCell r cSvc))).toList)
    ∧ eatInMatch (.str "Eat In") = true
    ∧ eatInMatch (.str "EAT-IN") = false
    ∧ eatInMatch (.str "Take Out") = false
    ∧ eatInMatch (.str "to go") = false
    ∧ ∀ p ∈ survivors t cO cC cSvc,
        ∃ r ∈ eatRows t cO cC cSvc, p.1 = setColCell r "Turn Time" (.num p.2) := by
  refine ⟨fun r => ?_, by decide, by decide, by decide, by decide, fun p hp => ?_⟩
  · rw [eatRows, List.mem_filter]
    constructor
    · rintro ⟨h1, h2⟩
      exact ⟨h1, (strContains_iff _ _).mp h2⟩
    · rintro ⟨h1, h2⟩
      exact ⟨h1, (strContains_iff _ _).mpr h2⟩
  · rw [survivors] at hp
    rcases List.mem_filterMap.mp hp with ⟨r, hr, hf⟩
    refine ⟨r, hr, ?_⟩
    rcases htt : turnTimeMin r cO cC with _ | q
    · simp [htt] at hf
    · simp only [htt] at hf
      by_cases h0 : 0 ≤ q
      · rw [if_pos h0] at hf
        cases hf
        rfl
      · rw [if_neg h0] at hf
        cases hf

/-- C1 counterexample: running the pipeline on the four example service
values keeps only the "Eat In" row; the "EAT-IN" row is dropped, so the
first two are not both retained as the claim states. -/
theorem eatin_filter_counterexample :
    compute_leaderboard tC1 "Opened" "Closed" "Service" "Server" none =
      .ok [⟨none, .str "A", 10⟩, ⟨none, .str "STORE AVERAGE", 10⟩]
    ∧ eatInMatch (.str "EAT-IN") = false :=
  ⟨by decide, by decide⟩

/-- Witness for C1: the "Eat In" row of `tC1` is retained by the filter. -/
theorem eatin_filter_witness :
    rowA ∈ (coercedTable tC1 "Opened" "Closed").rows ∧
      "eat in".toList <:+: (lowerStr (pyStr (getCell rowA "Service"))).toList :=
  ((eatin_filter_spec tC1 "Opened" "Closed" "Service").1 rowA).mp (by decide)

/-- C6: the aggregation drops exactly the eat-in rows whose Opened or
Closed cell is missing or unparsable or whose turn time is negative
(zero is kept, Closed before Opened is dropped), and
`NoValidRowsError` is raised iff no row survives. -/
theorem row_filtering_spec (t : RawTable) (cO cC cSvc cSrv : String)
    (cSite : Option String) :
    (compute_leaderboard t cO cC cSvc cSrv cSite = .error .noValidRows ↔
      survivors t cO cC cSvc = [])
    ∧ (∀ r : Row, (∃ q, turnTimeMin r cO cC = some q ∧ 0 ≤ q) ↔
        ∃ o c : ℤ, getCell r cO = .time o ∧ getCell r cC = .time c ∧ o ≤ c)
    ∧ survivors t cO cC cSvc = (eatRows t cO cC cSvc).filterMap
        (fun r => match turnTimeMin r cO cC with
          | some q => if 0 ≤ q then some (setColCell r "Turn Time" (.num q), q) else none
          | none => none) := by
  refine ⟨?_, fun r => ?_, rfl⟩
  · unfold compute_leaderboard
    by_cases he : (survivors t cO cC cSvc).isEmpty = true
    · simp only [he, if_true]
      simp [List.isEmpty_iff.mp he]
    · rw [Bool.not_eq_true] at he
      simp only [he, Bool.false_eq_true, if_false]
      refine ⟨fun hx => absurd hx (by simp), fun hx => ?_⟩
      rw [hx] at he
      simp at he
  · constructor
    · rintro ⟨q, hq, h0⟩
      unfold turnTimeMin at hq
      rcases hO : getCell r cO with _ | _ | o | _ <;>
        rcases hC : getCell r cC with _ | _ | c | _ <;>
          simp [hO, hC] at hq
      refine ⟨o, c, rfl, rfl, ?_⟩
      rw [← hq, Rat.mkRat_eq_div] at h0
      rw [le_div_iff₀ (by norm_num : (0:ℚ) < ((60:ℕ) : ℚ)), zero_mul] at h0
      have h1 : (0 : ℤ) ≤ c - o := by exact_mod_cast h0
      omega
    · rintro ⟨o, c, hO, hC, hoc⟩
      refine ⟨mkRat (c - o) 60, ?_, ?_⟩
      · unfold turnTimeMin
        rw [hO, hC]
      · rw [Rat.mkRat_eq_div]
        apply div_nonneg _ (by norm_num)
        exact_mod_cast sub_nonneg.mpr hoc

/-- Witness for C6: the table whose only row has an unparsable Opened
value produces `NoValidRowsError`. -/
theorem row_filtering_witness :
    compute_leaderboard t4 "Opened" "Closed" "Service" "Server" none =
      .error Err.noValidRows :=
  (row_filtering_spec t4 "Opened" "Closed" "Service" "Server" none).1.mpr (by decide)

/-- C2: every successful output is non-decreasing in TurnTime over all
but the last row, and the last row's Server is exactly "STORE AVERAGE",
regardless of the sentinel's value relative to the other rows. -/
theorem leaderboard_order_spec (t : RawTable) (cO cC cSvc cSrv : String)
    (cSite : Option String) (rows : List LBRow)
    (h : compute_leaderboard t cO cC cSvc cSrv cSite = .ok rows) :
    List.Pairwise (fun a b : LBRow => a.turnTime ≤ b.turnTime) rows.dropLast
    ∧ rows.getLast?.map LBRow.server = some (.str "STORE AVERAGE") := by
  rcases compute_ok_eq h with rfl
  constructor
  · rw [List.dropLast_concat]
    have hs := List.sorted_insertionSort ttle
      (groupMeans ((survivors t cO cC cSvc).map (fixServerCol cSrv)) cSrv)
    exact List.Pairwise.map _ (fun a b hab => round2_mono hab) hs
  · rw [List.getLast?_concat]
    rfl

/-- Witness for C2: the output for `t0` is sorted with the sentinel last. -/
theorem leaderboard_order_witness :
    List.Pairwise (fun a b : LBRow => a.turnTime ≤ b.turnTime) rows0.dropLast
    ∧ rows0.getLast?.map LBRow.server = some (.str "STORE AVERAGE") :=
  leaderboard_order_spec t0 "Opened" "Closed" "Service" "Server" none rows0 (by decide)

/-- C3: the sentinel row's TurnTime is the rounded arithmetic mean of
the full-precision per-row turn times over all surviving rows. -/
theorem store_average_spec (t : RawTable) (cO cC cSvc cSrv : String)
    (cSite : Option String) (rows : List LBRow)
    (h : compute_leaderboard t cO cC cSvc cSrv cSite = .ok rows) :
    rows.getLast?.map LBRow.turnTime =
      some (round2 (meanQ ((survivors t cO cC cSvc).map Prod.snd))) := by
  rcases compute_ok_eq h with rfl
  have hmap : ((survivors t cO cC cSvc).map (fixServerCol cSrv)).map Prod.snd
      = (survivors t cO cC cSvc).map Prod.snd := by
    rw [List.map_map]
    exact List.map_congr_left (fun a _ => rfl)
  simp only [List.getLast?_concat, storeAvg, hmap]
  rfl

/-- Witness for C3: on `t3` the sentinel value 23.33 is the rounded
per-row mean of 10, 20, 40, and differs from the rounded mean 27.5 of
the rounded group means 15 and 40. -/
theorem store_average_witness :
    rows3.getLast?.map LBRow.turnTime =
      some (round2 (meanQ ((survivors t3 "Opened" "Closed" "Service").map Prod.snd)))
    ∧ round2 (meanQ ((survivors t3 "Opened" "Closed" "Service").map Prod.snd)) ≠
        round2 (meanQ ((groupMeans
          ((survivors t3 "Opened" "Closed" "Service").map (fixServerCol "Server"))
          "Server").map Prod.snd)) :=
  ⟨store_average_spec t3 "Opened" "Closed" "Service" "Server" none rows3 (by decide),
   by decide⟩

/-- C4 counterexample: on a table whose Opened cell is an unparsable
string the pipeline's date coercion (lines 42-43) rewrites the caller's
table in place, so after `compute_leaderboard` fails the table differs
from the original. -/
theorem input_table_mutated :
    coercedTable t4 "Opened" "Closed" ≠ t4
    ∧ compute_leaderboard t4 "Opened" "Closed" "Service" "Server" none =
        .error Err.noValidRows :=
  ⟨by decide, by decide⟩

/-- C4 (amended): the pipeline mutates the caller's table only by
coercing the Opened and Closed columns in place: the column list, the
row count, and every cell of any other column are unchanged. -/
theorem compute_frame_spec (t : RawTable) (cO cC : String) :
    (coercedTable t cO cC).cols = t.cols
    ∧ (coercedTable t cO cC).rows.length = t.rows.length
    ∧ ∀ (k : String) (i : ℕ), k ≠ cO → k ≠ cC →
        ((coercedTable t cO cC).rows[i]?).map (fun r => r.lookup k) =
          (t.rows[i]?).map (fun r => r.lookup k) := by
  refine ⟨rfl, by simp [coercedTable, coerceDateCol], fun k i hkO hkC => ?_⟩
  simp only [coercedTable, coerceDateCol, List.getElem?_map]
  cases h : t.rows[i]? with
  | none => rfl
  | some r =>
    simp [lookup_coerceDateRow _ _ hkC, lookup_coerceDateRow _ _ hkO]

/-- Witness for C4's amended claim: the Service cell of `t4`'s row is
unchanged by the in-place coercion. -/
theorem compute_frame_witness :
    ((coercedTable t4 "Opened" "Closed").rows[0]?).map (fun r => r.lookup "Service") =
      (t4.rows[0]?).map (fun r => r.lookup "Service") :=
  (compute_frame_spec t4 "Opened" "Closed").2.2 "Service" 0 (by decide) (by decide)

/-- C9: every output row carries the site annotation; the annotation is
the single distinct non-missing site value when exactly one exists, and
absent when the site column is unresolved or the distinct count differs
from one. -/
theorem site_annotation_spec (t : RawTable) (cO cC cSvc cSrv : String)
    (cSite : Option String) (rows : List LBRow)
    (h : compute_leaderboard t cO cC cSvc cSrv cSite = .ok rows) :
    (∀ row ∈ rows, row.site =
      siteAnn ((survivors t cO cC cSvc).map (fixServerCol cSrv)) cSite)
    ∧ (cSite = none →
        siteAnn ((survivors t cO cC cSvc).map (fixServerCol cSrv)) cSite = none)
    ∧ ∀ cs, cSite = some cs →
        ((siteVals ((survivors t cO cC cSvc).map (fixServerCol cSrv)) cs).dedup.length = 1 ↔
          ∃ v, siteVals ((survivors t cO cC cSvc).map (fixServerCol cSrv)) cs ≠ [] ∧
            ∀ x ∈ siteVals ((survivors t cO cC cSvc).map (fixServerCol cSrv)) cs, x = v)
        ∧ ((siteVals ((survivors t cO cC cSvc).map (fixServerCol cSrv)) cs).dedup.length = 1 →
            siteAnn ((survivors t cO cC cSvc).map (fixServerCol cSrv)) cSite =
              (siteVals ((survivors t cO cC cSvc).map (fixServerCol cSrv)) cs).head?.map pyStr)
        ∧ ((siteVals ((survivors t cO cC cSvc).map (fixServerCol cSrv)) cs).dedup.length ≠ 1 →
            siteAnn ((survivors t cO cC cSvc).map (fixServerCol cSrv)) cSite = none) := by
  refine ⟨?_, ?_, fun cs hcs => ?_⟩
  · rcases compute_ok_eq h with rfl
    intro row hrow
    rcases List.mem_append.mp hrow with h1 | h1
    · rcases List.mem_map.mp h1 with ⟨p, _, rfl⟩
      rfl
    · rw [List.mem_singleton] at h1
      subst h1
      rfl
  · intro hc
    subst hc
    rfl
  · subst hcs
    refine ⟨dedup_length_one_iff _, fun h1 => ?_, fun h1 => ?_⟩
    · rw [siteAnn]
      rw [if_pos h1]
    · rw [siteAnn]
      rw [if_neg h1]

/-- Witness for C9: on `t9` the single distinct site "HQ" annotates the
first output row. -/
theorem site_annotation_witness :
    (⟨some "HQ", Cell.str "A", 10⟩ : LBRow).site =
      siteAnn ((survivors t9 "Opened" "Closed" "Service").map (fixServerCol "Server"))
        (some "Site") :=
  (site_annotation_spec t9 "Opened" "Closed" "Service" "Server" (some "Site") rows9
    (by decide)).1 ⟨some "HQ", Cell.str "A", 10⟩ (by decide)

/-- C10: Employee values are replaced by "(Unknown)" before grouping
exactly when missing or the empty string; a whitespace-only value such
as " " is kept verbatim and forms its own group distinct from
"(Unknown)". -/
theorem unknown_bucket_spec :
    fixServer .nan = .str "(Unknown)"
    ∧ fixServer (.str "") = .str "(Unknown)"
    ∧ (∀ s : String, s ≠ "" → fixServer (.str s) = .str s)
    ∧ (∀ q : ℚ, fixServer (.num q) = .num q)
    ∧ compute_leaderboard t10 "Opened" "Closed" "Service" "Server" none =
        .ok [⟨none, .str "(Unknown)", 10⟩, ⟨none, .str " ", 20⟩,
             ⟨none, .str "STORE AVERAGE", 15⟩] := by
  refine ⟨rfl, rfl, fun s hs => ?_, fun q => rfl, by decide⟩
  simp [fixServer, hs]

/-- Witness for C10: the whitespace-only employee name is kept verbatim. -/
theorem unknown_bucket_witness : fixServer (.str " ") = .str " " :=
  unknown_bucket_spec.2.2.1 " " (by decide)

/-- C7: a rendered row whose Server strips-and-uppercases to
"STORE AVERAGE" is wholly neutral, regardless of its turn-time value;
otherwise only the turn-time cell is colored, good below 35, warning
from 35 to 37 inclusive, bad above 37, and an unparsable turn time
leaves the row uncolored (the renderer never raises). -/
theorem row_coloring_spec (dcols : List String) (r : Row) :
    (upperStr (trimStr (pyStr (getCell r "Server"))) = "STORE AVERAGE" →
      rowColors 35 37 dcols r = List.replicate dcols.length .neutral)
    ∧ (upperStr (trimStr (pyStr (getCell r "Server"))) ≠ "STORE AVERAGE" →
        (∀ v, tryFloat (getCell r "Turn Time") = some v →
          rowColors 35 37 dcols r =
            (List.replicate dcols.length .white).set (dcols.indexOf "Turn Time")
              (if v < 35 then .good else if v ≤ 37 then .warning else .bad))
        ∧ (tryFloat (getCell r "Turn Time") = none →
            rowColors 35 37 dcols r = List.replicate dcols.length .white)) := by
  constructor
  · intro hs
    simp only [rowColors]
    rw [if_pos (beq_iff_eq.mpr hs)]
  · intro hs
    have hb : (upperStr (trimStr (pyStr (getCell r "Server"))) == "STORE AVERAGE") = false :=
      beq_eq_false_iff_ne.mpr hs
    constructor
    · intro v hv
      simp only [rowColors, hb, Bool.false_eq_true, if_false, hv]
      by_cases h1 : v < 35
      · rw [if_pos h1, if_pos h1]
      · rw [if_neg h1, if_neg h1]
        by_cases h2 : v ≤ 37
        · rw [if_pos ⟨not_lt.mp h1, h2⟩, if_pos h2]
        · rw [if_neg (fun hc => h2 hc.2), if_neg h2, if_pos (not_le.mp h2)]
    · intro hv
      simp only [rowColors, hb, Bool.false_eq_true, if_false, hv]

/-- Witness for C7: a sentinel row is wholly neutral even though its
turn-time value 99 would classify as bad. -/
theorem row_coloring_witness :
    rowColors 35 37 ["Server", "Turn Time"]
        [("Server", Cell.str " Store Average "), ("Turn Time", Cell.num 99)] =
      List.replicate 2 CellColor.neutral :=
  (row_coloring_spec ["Server", "Turn Time"]
    [("Server", Cell.str " Store Average "), ("Turn Time", Cell.num 99)]).1 (by decide)
